import Mathlib

/-!
Shallow embedding of the affiliate commission / payout accounting subsystem of
the `copyboss-live` backend, covering:

* the `database` module (`src/unnamed/part_000`): the `commissions` and
  `affiliate_payouts` tables and their operations (`createCommission`,
  `getTotalPendingCommissions`, `createPayout`, `updatePayoutStatus`);
* the payout job (`src/unnamed/part_003`): `getEligibleUsers`,
  `processUserPayout`, `updateCommissionsToPaid`, `processMonthlyPayouts`,
  the cron callback of `monthlyPayoutJob` and `triggerManualPayout`;
* the webhook commission recorders (`src/server.js`):
  `processAffiliateCommission` and `processSubscriptionCommission`.

Modelling conventions:

* Monetary amounts (SQL `DECIMAL(10,2)` columns and the JS numbers feeding
  them) are modelled as exact rationals `Rat`.
* SQL `NULL` / absent JS values are `Option`; JS `a || b` on id fields is
  `Option.orElse` (ids are AUTOINCREMENT starting at 1, never the falsy 0).
* Timestamps (`CURRENT_TIMESTAMP`, `new Date().toISOString()`) are an opaque
  `Nat` clock value `now` supplied by the environment; `created_at` columns,
  which no verified claim reads, are omitted from the row models.
* JS `Date` values are calendar dates `CalDate` (year, 1-based month, day);
  `date.setDate(date.getDate() + 1)` is `nextDay`, with Gregorian month
  lengths and leap years.
* The external Stripe transfer call is an oracle in the environment mapping a
  user id to `some transferId` (success) or `none` (the call throws), and the
  calls actually issued are recorded in the state (`stripeCalls`) so that
  "no transfer is attempted" is expressible.  A second oracle records whether
  the bulk commission update throws for a given user, which is the
  partial-failure point inside `processUserPayout`'s `try` block after the
  payout record exists.
* A thrown JS error is the `Bool` component of a result: `false` means the
  function re-threw after its `catch` block ran.
-/

/-- A calendar date as JS `Date` exposes it: `getFullYear`, month and
day-of-month.  The month is 1-based here (JS `getMonth()` is 0-based, but
only month differences and day-of-month are ever used, which agree). -/
structure CalDate where
  year : Int
  month : Nat
  day : Nat
deriving DecidableEq, Repr

/-- Gregorian leap-year rule, as implemented by JS `Date` rollover. -/
def isLeapYear (y : Int) : Bool :=
  (y % 4 == 0 && y % 100 != 0) || y % 400 == 0

/-- Number of days in a month of a given year. -/
def daysInMonth (y : Int) (m : Nat) : Nat :=
  if m = 2 then (if isLeapYear y then 29 else 28)
  else if m = 4 ∨ m = 6 ∨ m = 9 ∨ m = 11 then 30
  else 31

/-- Validity of a date: the month is a real month and the day a real day
of that month. -/
def ValidDate (d : CalDate) : Prop :=
  1 ≤ d.month ∧ d.month ≤ 12 ∧ 1 ≤ d.day ∧ d.day ≤ daysInMonth d.year d.month

instance (d : CalDate) : Decidable (ValidDate d) := by
  unfold ValidDate; infer_instance

/-- JS `tomorrow.setDate(today.getDate() + 1)`: the next calendar day, with
month/year rollover. -/
def nextDay (d : CalDate) : CalDate :=
  if d.day < daysInMonth d.year d.month then ⟨d.year, d.month, d.day + 1⟩
  else if d.month < 12 then ⟨d.year, d.month + 1, 1⟩
  else ⟨d.year + 1, 1, 1⟩

/-- The calendar month-number difference computed in
`processSubscriptionCommission` (`src/server.js` lines 565-566):
`(invoiceDate.getFullYear() - subscriptionStart.getFullYear()) * 12 +
(invoiceDate.getMonth() - subscriptionStart.getMonth())`. -/
def monthsDiff (start date : CalDate) : Int :=
  (date.year - start.year) * 12 + ((date.month : Int) - (start.month : Int))

/-- A row of the `users` table, restricted to the columns the affiliate
subsystem reads: primary key, nullable self-referencing `referrer_id`,
nullable `stripe_account_id`, and `created_at`. -/
structure UserRow where
  id : Nat
  referrer_id : Option Nat
  stripe_account_id : Option String
  created_at : CalDate
deriving DecidableEq, Repr

/-- A row of the `commissions` table (`created_at` omitted; no claim reads
it). `status` defaults to `pending`; `paid_at` is nullable. -/
structure CommissionRow where
  id : Nat
  referrer_id : Nat
  referred_user_id : Nat
  purchase_amount : Rat
  commission_amount : Rat
  status : String
  stripe_payment_intent_id : Option String
  paid_at : Option Nat
deriving DecidableEq, Repr

/-- A row of the `affiliate_payouts` table (`created_at` omitted; no claim
reads it). `status` defaults to `pending`; `stripe_payout_id` and `paid_at`
are nullable. -/
structure PayoutRow where
  id : Nat
  user_id : Nat
  amount : Rat
  stripe_payout_id : Option String
  status : String
  paid_at : Option Nat
deriving DecidableEq, Repr

/-- A call issued to `stripe.transfers.create`: the amount in the smallest
currency unit (pence), the destination account, and the `user_id` metadata. -/
structure TransferCall where
  amount : Int
  destination : Option String
  user_id : Nat
deriving DecidableEq, Repr

/-- The mutable state: the two ledger tables with their AUTOINCREMENT
counters, plus the trace of external transfer calls issued so far. -/
structure DBState where
  commissions : List CommissionRow
  payouts : List PayoutRow
  nextCommissionId : Nat
  nextPayoutId : Nat
  stripeCalls : List TransferCall
deriving DecidableEq, Repr

/-- The ambient environment of one run: the current clock value, the outcome
of the external transfer per user (`some id` = Stripe returns a transfer with
that id; `none` = the call throws), and whether the bulk commission update
throws for a user (the partial-failure point of `processUserPayout`). -/
structure Env where
  now : Nat
  transfer : Nat → Option String
  commitFails : Nat → Bool

/-- JS `Math.round`: round half toward positive infinity. -/
def jsRound (q : Rat) : Int := ⌊q + 1 / 2⌋

/-- Model of `db.getUserById` (`part_000` lines 235-245): `SELECT * FROM users WHERE
id = ?`. -/
def getUserById (users : List UserRow) (id : Nat) : Option UserRow :=
  users.find? (fun u => u.id = id)

/-- Model of `db.createCommission` (`part_000` lines 292-306): insert a commission
row; `status` takes its schema default `pending` and `paid_at` is NULL.
Returns the new state and `this.lastID`. -/
def createCommission (st : DBState) (referrerId referredUserId : Nat)
    (purchaseAmount commissionAmount : Rat) (paymentIntentId : Option String) :
    DBState × Nat :=
  ({ st with
      commissions := st.commissions ++
        [⟨st.nextCommissionId, referrerId, referredUserId, purchaseAmount,
          commissionAmount, "pending", paymentIntentId, none⟩],
      nextCommissionId := st.nextCommissionId + 1 },
   st.nextCommissionId)

/-- Model of `db.getTotalPendingCommissions` (`part_000` lines 357-371):
`SELECT SUM(commission_amount) FROM commissions WHERE referrer_id = ? AND
status = "pending"`, with `row.total || 0` turning the NULL sum of an empty
selection into 0. -/
def getTotalPendingCommissions (st : DBState) (userId : Nat) : Rat :=
  ((st.commissions.filter
      (fun c => c.referrer_id = userId ∧ c.status = "pending")).map
    (fun c => c.commission_amount)).sum

/-- Model of `db.createPayout` (`part_000` lines 391-405): `INSERT INTO
affiliate_payouts (user_id, amount) VALUES (?, ?)`; `status` takes its schema
default `pending`, `stripe_payout_id` and `paid_at` are NULL.  Returns the
new state and `this.lastID`. -/
def createPayout (st : DBState) (userId : Nat) (amount : Rat) :
    DBState × Nat :=
  ({ st with
      payouts := st.payouts ++
        [⟨st.nextPayoutId, userId, amount, none, "pending", none⟩],
      nextPayoutId := st.nextPayoutId + 1 },
   st.nextPayoutId)

/-- Model of `db.updatePayoutStatus` (`part_000` lines 407-422): sets `status`,
`stripe_payout_id` (NULL when the argument is omitted) and `paid_at` — the
current time exactly when the new status is `paid`, NULL otherwise — on the
row `WHERE id = ?`. -/
def updatePayoutStatus (now : Nat) (st : DBState) (payoutId : Nat)
    (status : String) (stripePayoutId : Option String) : DBState :=
  let paidAt : Option Nat := if status = "paid" then some now else none
  { st with
      payouts := st.payouts.map (fun p =>
        if p.id = payoutId then
          { p with status := status, stripe_payout_id := stripePayoutId,
                   paid_at := paidAt }
        else p) }

/-- Model of `updateCommissionsToPaid` (`part_003` lines 130-144): `UPDATE commissions
SET status = 'paid', paid_at = CURRENT_TIMESTAMP WHERE referrer_id = ? AND
status = 'pending'`. -/
def updateCommissionsToPaid (now : Nat) (st : DBState) (userId : Nat) :
    DBState :=
  { st with
      commissions := st.commissions.map (fun c =>
        if c.referrer_id = userId ∧ c.status = "pending" then
          { c with status := "paid", paid_at := some now }
        else c) }

/-- The per-user pending total as computed inside the `getEligibleUsers` SQL
(`part_003` lines 61-69): `COALESCE(SUM(c.commission_amount), 0)` over the
`LEFT JOIN` of the user's commissions with `c.status = 'pending'`. -/
def eligiblePendingTotal (st : DBState) (u : UserRow) : Rat :=
  ((st.commissions.filter
      (fun c => c.referrer_id = u.id ∧ c.status = "pending")).map
    (fun c => c.commission_amount)).sum

/-- Insertion into a list kept in descending key order (the effect of the
SQL `ORDER BY total_pending DESC`). -/
def insertDescBy (key : UserRow → Rat) (u : UserRow) :
    List UserRow → List UserRow
  | [] => [u]
  | v :: vs =>
      if key v < key u then u :: v :: vs else v :: insertDescBy key u vs

/-- Sort a user list by descending key. -/
def sortDescBy (key : UserRow → Rat) : List UserRow → List UserRow
  | [] => []
  | u :: us => insertDescBy key u (sortDescBy key us)

/-- Model of `getEligibleUsers` (`part_003` lines 59-78): all users with
`stripe_account_id IS NOT NULL` whose pending commission total satisfies
`HAVING total_pending >= 50`, `ORDER BY total_pending DESC`. -/
def getEligibleUsers (users : List UserRow) (st : DBState) : List UserRow :=
  sortDescBy (eligiblePendingTotal st)
    (users.filter (fun u =>
      u.stripe_account_id.isSome ∧ 50 ≤ eligiblePendingTotal st u))

/-- Model of `processUserPayout` (`part_003` lines 80-128).  Returns the new state and
`true` when the function returned normally, `false` when it re-threw from its
`catch` block.  Control flow mirrors the source `try`/`catch`:

1. re-read the pending total; below 50 → plain return, nothing touched;
2. issue the Stripe transfer for `Math.round(total * 100)` pence (recorded
   in `stripeCalls`); if the environment says the call throws, the `catch`
   block re-reads the total, inserts a payout row and marks it `failed`,
   then re-throws;
3. on transfer success, insert a payout row, mark it `paid` with the
   returned transfer id, then bulk-update the commissions; if the
   environment says that update throws, the same `catch` block runs — on
   the state that already contains the `paid` payout row. -/
def processUserPayout (env : Env) (st : DBState) (u : UserRow) :
    DBState × Bool :=
  let totalPending := getTotalPendingCommissions st u.id
  if totalPending < 50 then (st, true)
  else
    let st := { st with
      stripeCalls := st.stripeCalls ++
        [⟨jsRound (totalPending * 100), u.stripe_account_id, u.id⟩] }
    match env.transfer u.id with
    | none =>
        -- `stripe.transfers.create` threw: catch block
        let totalPending := getTotalPendingCommissions st u.id
        let (st, payoutId) := createPayout st u.id totalPending
        let st := updatePayoutStatus env.now st payoutId ("failed") none
        (st, false)
    | some transferId =>
        let (st, payoutId) := createPayout st u.id totalPending
        let st := updatePayoutStatus env.now st payoutId ("paid")
          (some transferId)
        if env.commitFails u.id then
          -- `updateCommissionsToPaid` threw: catch block
          let totalPending := getTotalPendingCommissions st u.id
          let (st, payoutId) := createPayout st u.id totalPending
          let st := updatePayoutStatus env.now st payoutId ("failed") none
          (st, false)
        else
          (updateCommissionsToPaid env.now st u.id, true)

/-- Model of `processMonthlyPayouts` (`part_003` lines 29-57): fetch the eligible
users and process each in turn; the `try`/`catch` inside the loop discards a
per-user failure and continues with the remaining users, so the batch is a
total fold over the eligible list. -/
def processMonthlyPayouts (env : Env) (users : List UserRow) (st : DBState) :
    DBState :=
  (getEligibleUsers users st).foldl
    (fun s u => (processUserPayout env s u).1) st

/-- The callback body of `monthlyPayoutJob` (`part_003` lines 6-27): on each
cron fire (daily on the 28th-31st), compute tomorrow; unless tomorrow's
day-of-month is 1, skip; otherwise run the full batch. -/
def monthlyPayoutJobFire (env : Env) (users : List UserRow) (st : DBState)
    (today : CalDate) : DBState :=
  if (nextDay today).day ≠ 1 then st
  else processMonthlyPayouts env users st

/-- Model of `triggerManualPayout` (`part_003` lines 147-150): runs the batch with no
date check. -/
def triggerManualPayout (env : Env) (users : List UserRow) (st : DBState) :
    DBState :=
  processMonthlyPayouts env users st

/-- A `checkout.session.completed` object as read by
`processAffiliateCommission`: `metadata.userId`, `customer`, `amount_total`
(minor units) and `payment_intent`. -/
structure Session where
  metadataUserId : Option Nat
  customer : Option Nat
  amount_total : Int
  payment_intent : Option String
deriving DecidableEq, Repr

/-- JS `session.metadata?.userId || session.customer` (both are ids, never the
falsy 0). -/
def sessionUserId (s : Session) : Option Nat :=
  s.metadataUserId.orElse (fun _ => s.customer)

/-- Model of `processAffiliateCommission` (`src/server.js` lines 511-544): resolve the
purchaser; if the purchaser exists and has a referrer, record one commission
with `purchase_amount = amount_total / 100` and
`commission_amount = purchaseAmount * 0.4`, unrounded. -/
def processAffiliateCommission (users : List UserRow) (st : DBState)
    (s : Session) : DBState :=
  match sessionUserId s with
  | none => st
  | some userId =>
    match getUserById users userId with
    | none => st
    | some user =>
      match user.referrer_id with
      | none => st
      | some referrerId =>
        let purchaseAmount : Rat := (s.amount_total : Rat) / 100
        let commissionAmount : Rat := purchaseAmount * (4 / 10)
        (createCommission st referrerId userId purchaseAmount
          commissionAmount s.payment_intent).1

/-- An `invoice.payment_succeeded` object as read by
`processSubscriptionCommission`: `metadata.userId`, `customer`,
`amount_paid` (minor units), `payment_intent`, and the calendar date that
`new Date(invoice.created * 1000)` denotes. -/
structure Invoice where
  metadataUserId : Option Nat
  customer : Option Nat
  amount_paid : Int
  payment_intent : Option String
  createdDate : CalDate
deriving DecidableEq, Repr

/-- JS `invoice.metadata?.userId || invoice.customer`. -/
def invoiceUserId (i : Invoice) : Option Nat :=
  i.metadataUserId.orElse (fun _ => i.customer)

/-- Model of `processSubscriptionCommission` (`src/server.js` lines 547-590): resolve
the payer; if the payer exists and has a referrer, compute the calendar
month-number difference between the account's `created_at` and the invoice
date; when it is `>= 3` do nothing, otherwise record one commission with
`commission_amount = (amount_paid / 100) * 0.4`, unrounded. -/
def processSubscriptionCommission (users : List UserRow) (st : DBState)
    (i : Invoice) : DBState :=
  match invoiceUserId i with
  | none => st
  | some userId =>
    match getUserById users userId with
    | none => st
    | some user =>
      match user.referrer_id with
      | none => st
      | some referrerId =>
        if 3 ≤ monthsDiff user.created_at i.createdDate then st
        else
          let purchaseAmount : Rat := (i.amount_paid : Rat) / 100
          let commissionAmount : Rat := purchaseAmount * (4 / 10)
          (createCommission st referrerId userId purchaseAmount
            commissionAmount i.payment_intent).1

/-- Rounding to the currency precision (two decimal places) as the spec's
words describe (`round(purchase_amount * 0.40, currency precision)`).  This
definition follows the SPEC, for comparison; the source performs no such
rounding when it stores `commission_amount`. -/
def specRoundCurrency (q : Rat) : Rat := ((round (q * 100) : Int) : Rat) / 100

/-- The payout-table counterpart of the commission invariant: a payout row
has a non-null `paid_at` exactly when its `status` is `paid`. -/
def payoutPaidAtConsistent (p : PayoutRow) : Prop :=
  p.status = "paid" ↔ p.paid_at ≠ none

instance (p : PayoutRow) : Decidable (payoutPaidAtConsistent p) := by
  unfold payoutPaidAtConsistent; infer_instance

/-- Fixture: an environment whose transfer call always succeeds. -/
def envC1 : Env := ⟨7, fun _ => some ("tr_C1"), fun _ => false⟩

/-- Fixture: an affiliate with a connected Stripe account. -/
def userC1 : UserRow := ⟨1, none, some ("acct_C1"), ⟨2024, 1, 1⟩⟩

/-- Fixture: one pending commission of 50 owed to user 1. -/
def stC1 : DBState := ⟨[⟨1, 1, 2, 125, 50, "pending", none, none⟩], [], 2, 1, []⟩

/-- Fixture: an environment whose transfer call always throws. -/
def envC2 : Env := ⟨7, fun _ => none, fun _ => false⟩

/-- Fixture: an affiliate with a connected Stripe account. -/
def userC2 : UserRow := ⟨1, none, some ("acct_C2"), ⟨2024, 1, 1⟩⟩

/-- Fixture: two pending commissions totalling 70 owed to user 1. -/
def stC2 : DBState :=
  ⟨[⟨1, 1, 2, 100, 40, "pending", none, none⟩,
    ⟨2, 1, 3, 75, 30, "pending", none, none⟩], [], 3, 1, []⟩

/-- Fixture: an affiliate with a connected Stripe account. -/
def userC3 : UserRow := ⟨1, none, some ("acct_C3"), ⟨2024, 1, 1⟩⟩

/-- Fixture: a single pending commission of exactly 50 (the inclusive
threshold boundary) owed to user 1. -/
def stC3 : DBState := ⟨[⟨1, 1, 2, 125, 50, "pending", none, none⟩], [], 2, 1, []⟩

/-- Fixture: commissions, none of which belong to user 1. -/
def stC3z : DBState :=
  ⟨[⟨1, 9, 10, 100, 40, "pending", none, none⟩], [], 2, 1, []⟩

/-- Fixture: user 1 is an affiliate; user 2 was referred by user 1. -/
def usersC4 : List UserRow :=
  [⟨1, none, some ("acct_C4"), ⟨2024, 1, 1⟩⟩,
   ⟨2, some 1, none, ⟨2024, 1, 1⟩⟩]

/-- Fixture: an empty ledger. -/
def stC4 : DBState := ⟨[], [], 1, 1, []⟩

/-- Fixture: a completed one-time purchase of 333 pence (3.33 in pounds) by
user 2, whose 40% commission 1.332 is not representable in whole pence. -/
def sessC4 : Session := ⟨some 2, none, 333, some ("pi_C4")⟩

/-- Fixture: user 2 (referred by user 1) with account created 2024-01-15. -/
def usersC5 : List UserRow := [⟨2, some 1, none, ⟨2024, 1, 15⟩⟩]

/-- Fixture: an empty ledger. -/
def stC5 : DBState := ⟨[], [], 1, 1, []⟩

/-- Fixture: subscription invoice for user 2 dated 2024-04-10 — exactly 3
calendar months after account creation. -/
def invC5boundary : Invoice := ⟨some 2, none, 1000, some ("pi_C5a"), ⟨2024, 4, 10⟩⟩

/-- Fixture: subscription invoice for user 2 dated 2024-02-10 — 1 calendar
month after account creation. -/
def invC5early : Invoice := ⟨some 2, none, 1000, some ("pi_C5b"), ⟨2024, 2, 10⟩⟩

/-- Fixture: first of three eligible affiliates. -/
def userC6a : UserRow := ⟨1, none, some ("acct_C6a"), ⟨2024, 1, 1⟩⟩

/-- Fixture: second of three eligible affiliates — the one whose transfer
call will throw. -/
def userC6b : UserRow := ⟨2, none, some ("acct_C6b"), ⟨2024, 1, 1⟩⟩

/-- Fixture: third of three eligible affiliates. -/
def userC6c : UserRow := ⟨3, none, some ("acct_C6c"), ⟨2024, 1, 1⟩⟩

/-- Fixture: one pending commission above threshold for each of users 1-3. -/
def stC6 : DBState :=
  ⟨[⟨1, 1, 10, 200, 80, "pending", none, none⟩,
    ⟨2, 2, 11, 175, 70, "pending", none, none⟩,
    ⟨3, 3, 12, 150, 60, "pending", none, none⟩], [], 4, 1, []⟩

/-- Fixture: an environment in which user 2's transfer call throws and the
other transfers succeed. -/
def envC6 : Env :=
  ⟨99,
   fun uid =>
     if uid = 1 then some ("tr_C6_1")
     else if uid = 3 then some ("tr_C6_3")
     else none,
   fun _ => false⟩

/-- Fixture: an environment whose transfer call always succeeds. -/
def envC7 : Env := ⟨7, fun _ => some ("tr_C7"), fun _ => false⟩

/-- Fixture: an affiliate with a connected Stripe account. -/
def userC7 : UserRow := ⟨1, none, some ("acct_C7"), ⟨2024, 1, 1⟩⟩

/-- Fixture: a pending total of 49, just below the threshold. -/
def stC7 : DBState := ⟨[⟨1, 1, 2, 1225 / 10, 49, "pending", none, none⟩], [], 2, 1, []⟩

/-- Fixture: a trivial environment for exercising the scheduler. -/
def envC8 : Env := ⟨0, fun _ => none, fun _ => false⟩

/-- Fixture: no users. -/
def usersC8 : List UserRow := []

/-- Fixture: an empty ledger. -/
def stC8 : DBState := ⟨[], [], 1, 1, []⟩

/-- Fixture: 2024-02-29, the last day of a leap-year February. -/
def dC8last : CalDate := ⟨2024, 2, 29⟩

/-- Fixture: 2024-02-28, not the last day of that month. -/
def dC8mid : CalDate := ⟨2024, 2, 28⟩

/-- Fixture: a ledger holding one payout row in its freshly-inserted state
(`pending`, `paid_at` NULL). -/
def stC9 : DBState := ⟨[], [⟨1, 4, 60, none, "pending", none⟩], 1, 2, []⟩

/-- Fixture: an environment whose transfer succeeds but whose bulk
commission update throws. -/
def envC10 : Env := ⟨7, fun _ => some ("tr_C10"), fun _ => true⟩

/-- Fixture: an affiliate with a connected Stripe account. -/
def userC10 : UserRow := ⟨1, none, some ("acct_C10"), ⟨2024, 1, 1⟩⟩

/-- Fixture: one pending commission of 60 owed to user 1. -/
def stC10 : DBState := ⟨[⟨1, 1, 2, 150, 60, "pending", none, none⟩], [], 2, 1, []⟩

/-- Mapping an update that targets id `n` over a list of payout rows none of
which has id `n` changes nothing. -/
theorem map_update_id_of_ne (f : PayoutRow → PayoutRow) (n : Nat)
    (l : List PayoutRow) (h : ∀ p ∈ l, p.id ≠ n) :
    (l.map fun p => if p.id = n then f p else p) = l := by
  induction l with
  | nil => rfl
  | cons a t ih =>
      rw [List.map_cons, if_neg (h a (List.mem_cons_self a t)),
        ih (fun p hp => h p (List.mem_cons_of_mem a hp))]

/-- C1: for an eligible user whose external transfer call succeeds,
`processUserPayout` marks every one of that user's `pending` commissions as
`paid` with a non-null `paid_at` timestamp, leaves all other commissions
untouched, and creates exactly one payout row for the user — appended to the
table, ending with status `paid`, the transfer reference returned by Stripe,
and the pending total as its amount — and returns without throwing. -/
theorem processUserPayout_transfer_success (env : Env) (st : DBState)
    (u : UserRow) (tid : String)
    (hfresh : ∀ p ∈ st.payouts, p.id ≠ st.nextPayoutId)
    (htr : env.transfer u.id = some tid)
    (hcommit : env.commitFails u.id = false)
    (hsum : 50 ≤ getTotalPendingCommissions st u.id) :
    (processUserPayout env st u).1.payouts =
        st.payouts ++ [⟨st.nextPayoutId, u.id,
          getTotalPendingCommissions st u.id, some tid, "paid", some env.now⟩]
    ∧ (processUserPayout env st u).1.commissions =
        st.commissions.map (fun c =>
          if c.referrer_id = u.id ∧ c.status = "pending" then
            { c with status := "paid", paid_at := some env.now } else c)
    ∧ (processUserPayout env st u).2 = true := by
  have hnl : ¬ (getTotalPendingCommissions st u.id < 50) := not_lt.mpr hsum
  simp only [processUserPayout, hnl, if_false, htr, hcommit,
    createPayout, updatePayoutStatus, updateCommissionsToPaid]
  simp only [List.map_append]
  rw [map_update_id_of_ne _ _ _ hfresh]
  simp

/-- Witness for C1: the success path on a concrete ledger with one pending
commission of 50. -/
theorem processUserPayout_transfer_success_witness :
    (processUserPayout envC1 stC1 userC1).1.payouts =
        stC1.payouts ++ [⟨stC1.nextPayoutId, userC1.id,
          getTotalPendingCommissions stC1 userC1.id, some ("tr_C1"), "paid",
          some envC1.now⟩]
    ∧ (processUserPayout envC1 stC1 userC1).1.commissions =
        stC1.commissions.map (fun c =>
          if c.referrer_id = userC1.id ∧ c.status = "pending" then
            { c with status := "paid", paid_at := some envC1.now } else c)
    ∧ (processUserPayout envC1 stC1 userC1).2 = true :=
  processUserPayout_transfer_success envC1 stC1 userC1 ("tr_C1")
    (by simp [stC1]) rfl rfl
    (by norm_num [getTotalPendingCommissions, stC1, userC1, List.filter])

/-- C2: for an eligible user whose external transfer call fails,
`processUserPayout` leaves every commission unchanged (so none is marked
paid), creates exactly one payout row with status `failed` recording the
attempted amount, re-throws, and the user's pending total — the sum the next
cycle reconsiders — is unchanged. -/
theorem processUserPayout_transfer_failure (env : Env) (st : DBState)
    (u : UserRow)
    (hfresh : ∀ p ∈ st.payouts, p.id ≠ st.nextPayoutId)
    (htr : env.transfer u.id = none)
    (hsum : 50 ≤ getTotalPendingCommissions st u.id) :
    (processUserPayout env st u).1.commissions = st.commissions
    ∧ (processUserPayout env st u).1.payouts =
        st.payouts ++ [⟨st.nextPayoutId, u.id,
          getTotalPendingCommissions st u.id, none, "failed", none⟩]
    ∧ getTotalPendingCommissions (processUserPayout env st u).1 u.id =
        getTotalPendingCommissions st u.id
    ∧ (processUserPayout env st u).2 = false := by
  have hnl : ¬ (getTotalPendingCommissions st u.id < 50) := not_lt.mpr hsum
  simp only [processUserPayout, hnl, if_false, htr,
    createPayout, updatePayoutStatus]
  simp only [List.map_append]
  rw [map_update_id_of_ne _ _ _ hfresh]
  simp [getTotalPendingCommissions]

/-- Witness for C2: the failure path on a concrete ledger with two pending
commissions totalling 70. -/
theorem processUserPayout_transfer_failure_witness :
    (processUserPayout envC2 stC2 userC2).1.commissions = stC2.commissions
    ∧ (processUserPayout envC2 stC2 userC2).1.payouts =
        stC2.payouts ++ [⟨stC2.nextPayoutId, userC2.id,
          getTotalPendingCommissions stC2 userC2.id, none, "failed", none⟩]
    ∧ getTotalPendingCommissions (processUserPayout envC2 stC2 userC2).1
          userC2.id =
        getTotalPendingCommissions stC2 userC2.id
    ∧ (processUserPayout envC2 stC2 userC2).2 = false :=
  processUserPayout_transfer_failure envC2 stC2 userC2
    (by simp [stC2]) rfl
    (by norm_num [getTotalPendingCommissions, stC2, userC2, List.filter])

/-- C7: when the re-read pending total is below the 50 threshold,
`processUserPayout` returns normally with the state identical — no transfer
call is issued (the `stripeCalls` trace is part of the state), no payout row
is created and no commission row is modified. -/
theorem processUserPayout_below_threshold_skips (env : Env) (st : DBState)
    (u : UserRow) (h : getTotalPendingCommissions st u.id < 50) :
    processUserPayout env st u = (st, true) := by
  simp [processUserPayout, h]

/-- Witness for C7: a concrete ledger with a pending total of 49. -/
theorem processUserPayout_below_threshold_skips_witness :
    processUserPayout envC7 stC7 userC7 = (stC7, true) :=
  processUserPayout_below_threshold_skips envC7 stC7 userC7
    (by norm_num [getTotalPendingCommissions, stC7, userC7, List.filter])

/-- C10: when the transfer succeeds and the payout row has been created and
marked `paid`, but the bulk commission update then throws, the `catch`
handler of `processUserPayout` inserts a second payout row for the same user
with status `failed`; the first row is neither removed nor altered, so one
invocation leaves two payout rows — one `paid`, one `failed` — while every
commission is left unsettled. -/
theorem processUserPayout_commit_failure_double_payout (env : Env)
    (st : DBState) (u : UserRow) (tid : String)
    (hfresh : ∀ p ∈ st.payouts, p.id < st.nextPayoutId)
    (htr : env.transfer u.id = some tid)
    (hcommit : env.commitFails u.id = true)
    (hsum : 50 ≤ getTotalPendingCommissions st u.id) :
    (processUserPayout env st u).1.payouts =
        st.payouts ++
          [⟨st.nextPayoutId, u.id, getTotalPendingCommissions st u.id,
            some tid, "paid", some env.now⟩,
           ⟨st.nextPayoutId + 1, u.id, getTotalPendingCommissions st u.id,
            none, "failed", none⟩]
    ∧ (processUserPayout env st u).1.commissions = st.commissions
    ∧ (processUserPayout env st u).2 = false := by
  have hnl : ¬ (getTotalPendingCommissions st u.id < 50) := not_lt.mpr hsum
  simp only [processUserPayout, hnl, if_false, htr, hcommit,
    createPayout, updatePayoutStatus]
  simp only [List.map_append, List.map_cons, List.map_nil]
  rw [map_update_id_of_ne _ _ _ (fun p hp => Nat.ne_of_lt (hfresh p hp)),
      map_update_id_of_ne _ _ _
        (fun p hp => Nat.ne_of_lt (Nat.lt_succ_of_lt (hfresh p hp)))]
  simp [getTotalPendingCommissions]

/-- Witness for C10: the commit-failure path on a concrete ledger with one
pending commission of 60. -/
theorem processUserPayout_commit_failure_double_payout_witness :
    (processUserPayout envC10 stC10 userC10).1.payouts =
        stC10.payouts ++
          [⟨stC10.nextPayoutId, userC10.id,
            getTotalPendingCommissions stC10 userC10.id,
            some ("tr_C10"), "paid", some envC10.now⟩,
           ⟨stC10.nextPayoutId + 1, userC10.id,
            getTotalPendingCommissions stC10 userC10.id,
            none, "failed", none⟩]
    ∧ (processUserPayout envC10 stC10 userC10).1.commissions =
        stC10.commissions
    ∧ (processUserPayout envC10 stC10 userC10).2 = false :=
  processUserPayout_commit_failure_double_payout envC10 stC10 userC10
    ("tr_C10") (by simp [stC10]) rfl rfl
    (by norm_num [getTotalPendingCommissions, stC10, userC10, List.filter])

/-- Membership in a descending-order insertion. -/
theorem mem_insertDescBy (k : UserRow → Rat) (u a : UserRow)
    (l : List UserRow) : a ∈ insertDescBy k u l ↔ a = u ∨ a ∈ l := by
  induction l with
  | nil => simp [insertDescBy]
  | cons v vs ih =>
      by_cases h : k v < k u
      · simp [insertDescBy, h, List.mem_cons]
      · simp only [insertDescBy, if_neg h, List.mem_cons, ih]
        tauto

/-- Sorting by descending key preserves membership. -/
theorem mem_sortDescBy (k : UserRow → Rat) (a : UserRow)
    (l : List UserRow) : a ∈ sortDescBy k l ↔ a ∈ l := by
  induction l with
  | nil => simp [sortDescBy]
  | cons v vs ih => simp [sortDescBy, mem_insertDescBy, ih]

/-- C3: the eligibility scan selects a user iff the user is in the table,
has a non-null `stripe_account_id`, and the sum of `commission_amount` over
that user's `pending` commissions is at least 50 (inclusive boundary); and
the pending sum of a user owning no commission rows is 0. -/
theorem getEligibleUsers_spec (users : List UserRow) (st : DBState)
    (u : UserRow) :
    (u ∈ getEligibleUsers users st ↔
      u ∈ users ∧ u.stripe_account_id.isSome ∧
        50 ≤ getTotalPendingCommissions st u.id)
    ∧ ((∀ c ∈ st.commissions, c.referrer_id ≠ u.id) →
        getTotalPendingCommissions st u.id = 0) := by
  constructor
  · rw [getEligibleUsers, mem_sortDescBy, List.mem_filter]
    simp [eligiblePendingTotal, getTotalPendingCommissions]
  · intro h
    rw [getTotalPendingCommissions]
    have hf : st.commissions.filter
        (fun c => decide (c.referrer_id = u.id ∧ c.status = "pending")) = [] :=
      List.filter_eq_nil_iff.mpr (fun c hc => by simp [h c hc])
    rw [hf]
    rfl

/-- Witness for C3: a user with a connected account and a pending sum of
exactly 50.00 is selected, and a user owning no commissions has pending sum
0. -/
theorem getEligibleUsers_spec_witness :
    userC3 ∈ getEligibleUsers [userC3] stC3
    ∧ getTotalPendingCommissions stC3z userC3.id = 0 :=
  ⟨(getEligibleUsers_spec [userC3] stC3 userC3).1.mpr
      (by norm_num [userC3, getTotalPendingCommissions, stC3, List.filter]),
   (getEligibleUsers_spec [userC3] stC3z userC3).2
      (by simp [stC3z, userC3])⟩

/-- C9: `createPayout` inserts a row with default status `pending` and NULL
`paid_at`, and both `createPayout` and `updatePayoutStatus` (which sets
`paid_at` to the current time exactly when the new status is `paid` and to
NULL otherwise, including `failed`) preserve the invariant that a payout
row's `paid_at` is non-null iff its status is `paid`. -/
theorem payout_paidAt_status_invariant (st : DBState) (uid : Nat) (amt : Rat)
    (now pid : Nat) (status : String) (ref : Option String)
    (hinv : ∀ p ∈ st.payouts, payoutPaidAtConsistent p) :
    (createPayout st uid amt).1.payouts =
        st.payouts ++ [⟨st.nextPayoutId, uid, amt, none, "pending", none⟩]
    ∧ (∀ p ∈ (createPayout st uid amt).1.payouts, payoutPaidAtConsistent p)
    ∧ (∀ p ∈ (updatePayoutStatus now st pid status ref).payouts,
        payoutPaidAtConsistent p) := by
  refine ⟨rfl, ?_, ?_⟩
  · intro p hp
    simp only [createPayout] at hp
    rcases List.mem_append.mp hp with h | h
    · exact hinv p h
    · rw [List.mem_singleton.mp h]
      simp [payoutPaidAtConsistent]
  · intro p hp
    simp only [updatePayoutStatus, List.mem_map] at hp
    obtain ⟨q, hq, rfl⟩ := hp
    by_cases h : q.id = pid
    · simp only [if_pos h]
      by_cases hs : status = "paid" <;>
        simp [payoutPaidAtConsistent, hs]
    · simp only [if_neg h]
      exact hinv q hq

/-- Witness for C9: the freshly-inserted row on a concrete ledger, and the
row after a concrete `paid` update. -/
theorem payout_paidAt_status_invariant_witness :
    (createPayout stC9 4 60).1.payouts =
        stC9.payouts ++ [⟨stC9.nextPayoutId, 4, 60, none, "pending", none⟩]
    ∧ payoutPaidAtConsistent
        (⟨1, 4, 60, some ("tr_C9"), "paid", some 5⟩ : PayoutRow) :=
  ⟨(payout_paidAt_status_invariant stC9 4 60 5 1 ("paid") (some ("tr_C9"))
      (by simp [stC9, payoutPaidAtConsistent])).1,
   (payout_paidAt_status_invariant stC9 4 60 5 1 ("paid") (some ("tr_C9"))
      (by simp [stC9, payoutPaidAtConsistent])).2.2
      (⟨1, 4, 60, some ("tr_C9"), "paid", some 5⟩ : PayoutRow)
      (by simp [updatePayoutStatus, stC9])⟩

/-- C5: for a subscription invoice whose payer exists and has a referrer, a
commission is recorded exactly when the calendar month-number difference
between account creation and invoice date is strictly below 3 — below 3 one
`pending` commission row is appended, and at 3 or more the state is
untouched. -/
theorem processSubscriptionCommission_month_gate (users : List UserRow)
    (st : DBState) (i : Invoice) (uid refId : Nat) (user : UserRow)
    (hres : invoiceUserId i = some uid)
    (hfind : getUserById users uid = some user)
    (href : user.referrer_id = some refId) :
    (monthsDiff user.created_at i.createdDate < 3 →
      (processSubscriptionCommission users st i).commissions =
        st.commissions ++
          [⟨st.nextCommissionId, refId, uid, (i.amount_paid : Rat) / 100,
            (i.amount_paid : Rat) / 100 * (4 / 10), "pending",
            i.payment_intent, none⟩])
    ∧ (3 ≤ monthsDiff user.created_at i.createdDate →
        processSubscriptionCommission users st i = st) := by
  constructor
  · intro hlt
    simp only [processSubscriptionCommission, hres, hfind, href,
      if_neg (not_le.mpr hlt), createCommission]
  · intro hge
    simp only [processSubscriptionCommission, hres, hfind, href, if_pos hge]

/-- Witness for C5: account created 2024-01-15 — an invoice dated 2024-04-10
(month difference exactly 3) records nothing, and an invoice dated
2024-02-10 (month difference 1) records one pending commission. -/
theorem processSubscriptionCommission_month_gate_witness :
    processSubscriptionCommission usersC5 stC5 invC5boundary = stC5
    ∧ (processSubscriptionCommission usersC5 stC5 invC5early).commissions =
        stC5.commissions ++
          [⟨stC5.nextCommissionId, 1, 2, (invC5early.amount_paid : Rat) / 100,
            (invC5early.amount_paid : Rat) / 100 * (4 / 10), "pending",
            invC5early.payment_intent, none⟩] :=
  ⟨(processSubscriptionCommission_month_gate usersC5 stC5 invC5boundary 2 1
      (⟨2, some 1, none, ⟨2024, 1, 15⟩⟩ : UserRow) rfl rfl rfl).2
      (by norm_num [monthsDiff, invC5boundary]),
   (processSubscriptionCommission_month_gate usersC5 stC5 invC5early 2 1
      (⟨2, some 1, none, ⟨2024, 1, 15⟩⟩ : UserRow) rfl rfl rfl).1
      (by norm_num [monthsDiff, invC5early])⟩

/-- Counterexample for C4: for a one-time purchase of 333 pence by a
referred user, the code stores `commission_amount = 3.33 * 0.4 = 1.332`,
which differs from the claim's `round(purchase_amount * 0.40, currency
precision) = 1.33` — the source applies no rounding. -/
theorem processAffiliateCommission_rounding_counterexample :
    ((processAffiliateCommission usersC4 stC4 sessC4).commissions.map
        fun c => c.commission_amount) = [(333 : Rat) / 250]
    ∧ specRoundCurrency (((333 : Rat) / 100) * (4 / 10)) = 133 / 100
    ∧ ((333 : Rat) / 250) ≠ 133 / 100 := by
  refine ⟨?_, ?_, by norm_num⟩
  · norm_num [processAffiliateCommission, sessionUserId, getUserById,
      usersC4, stC4, sessC4, createCommission, List.find?]
  · norm_num [specRoundCurrency, round_eq]

/-- C4 (amended): for a one-time purchase whose purchaser exists and has a
referrer, exactly one commission row is appended, with
`commission_amount = purchase_amount * 0.40` taken exactly as computed — no
rounding to the currency precision — and status `pending`. -/
theorem processAffiliateCommission_exact_commission (users : List UserRow)
    (st : DBState) (s : Session) (uid refId : Nat) (user : UserRow)
    (hres : sessionUserId s = some uid)
    (hfind : getUserById users uid = some user)
    (href : user.referrer_id = some refId) :
    (processAffiliateCommission users st s).commissions =
      st.commissions ++
        [⟨st.nextCommissionId, refId, uid, (s.amount_total : Rat) / 100,
          (s.amount_total : Rat) / 100 * (4 / 10), "pending",
          s.payment_intent, none⟩] := by
  simp only [processAffiliateCommission, hres, hfind, href, createCommission]

/-- Witness for C4 (amended): the 333-pence purchase appends one pending
commission of exactly 1.332. -/
theorem processAffiliateCommission_exact_commission_witness :
    (processAffiliateCommission usersC4 stC4 sessC4).commissions =
      stC4.commissions ++
        [⟨stC4.nextCommissionId, 1, 2, (sessC4.amount_total : Rat) / 100,
          (sessC4.amount_total : Rat) / 100 * (4 / 10), "pending",
          sessC4.payment_intent, none⟩] :=
  processAffiliateCommission_exact_commission usersC4 stC4 sessC4 2 1
    (⟨2, some 1, none, ⟨2024, 1, 1⟩⟩ : UserRow) rfl rfl rfl

/-- C6: over a batch of 3 eligible users in which the second user's transfer
call throws, the batch (a total function — no exception escapes the loop)
still processes every user: the first and third users' commissions are
settled with `paid` payout rows carrying their transfer references, the
second user keeps pending commissions and receives a `failed` payout row,
and all three transfer calls were attempted. -/
theorem processMonthlyPayouts_batch_isolation :
    envC6.transfer userC6b.id = none
    ∧ ((processMonthlyPayouts envC6 [userC6a, userC6b, userC6c]
          stC6).commissions.map fun c => (c.referrer_id, c.status, c.paid_at)) =
        [(1, "paid", some 99), (2, "pending", none), (3, "paid", some 99)]
    ∧ ((processMonthlyPayouts envC6 [userC6a, userC6b, userC6c]
          stC6).payouts.map fun p => (p.user_id, p.status, p.stripe_payout_id)) =
        [(1, "paid", some ("tr_C6_1")), (2, "failed", none),
         (3, "paid", some ("tr_C6_3"))]
    ∧ ((processMonthlyPayouts envC6 [userC6a, userC6b, userC6c]
          stC6).stripeCalls.map fun t => t.user_id) = [1, 2, 3] := by
  refine ⟨rfl, ?_⟩
  norm_num [processMonthlyPayouts, getEligibleUsers, eligiblePendingTotal,
    sortDescBy, insertDescBy, processUserPayout, getTotalPendingCommissions,
    createPayout, updatePayoutStatus, updateCommissionsToPaid, jsRound,
    envC6, stC6, userC6a, userC6b, userC6c, List.filter, List.foldl]

/-- C8: for a valid date, tomorrow's day-of-month is 1 exactly when today is
the last day of its month; on each scheduled fire the batch runs iff that
check passes and otherwise the firing leaves the state untouched; the manual
trigger performs no date check and always runs the full batch. -/
theorem monthlyPayoutJob_last_day_check (env : Env) (users : List UserRow)
    (st : DBState) (today : CalDate) (hv : ValidDate today) :
    ((nextDay today).day = 1 ↔
        today.day = daysInMonth today.year today.month)
    ∧ ((nextDay today).day = 1 →
        monthlyPayoutJobFire env users st today =
          processMonthlyPayouts env users st)
    ∧ ((nextDay today).day ≠ 1 →
        monthlyPayoutJobFire env users st today = st)
    ∧ triggerManualPayout env users st = processMonthlyPayouts env users st := by
  obtain ⟨h1, h2, h3, h4⟩ := hv
  refine ⟨?_, ?_, ?_, rfl⟩
  · unfold nextDay
    by_cases h : today.day < daysInMonth today.year today.month
    · simp only [if_pos h]
      omega
    · simp only [if_neg h]
      by_cases hm : today.month < 12
      · simp only [if_pos hm, true_iff]
        omega
      · simp only [if_neg hm, true_iff]
        omega
  · intro hh
    simp [monthlyPayoutJobFire, hh]
  · intro hh
    simp [monthlyPayoutJobFire, hh]

/-- Witness for C8: on 2024-02-29 (the last day of the month) the fire runs
the batch, on 2024-02-28 it is a no-op, and the manual trigger always runs
the batch. -/
theorem monthlyPayoutJob_last_day_check_witness :
    monthlyPayoutJobFire envC8 usersC8 stC8 dC8last =
      processMonthlyPayouts envC8 usersC8 stC8
    ∧ monthlyPayoutJobFire envC8 usersC8 stC8 dC8mid = stC8
    ∧ triggerManualPayout envC8 usersC8 stC8 =
        processMonthlyPayouts envC8 usersC8 stC8 :=
  ⟨(monthlyPayoutJob_last_day_check envC8 usersC8 stC8 dC8last
      (by decide)).2.1 (by decide),
   (monthlyPayoutJob_last_day_check envC8 usersC8 stC8 dC8mid
      (by decide)).2.2.1 (by decide),
   (monthlyPayoutJob_last_day_check envC8 usersC8 stC8 dC8last
      (by decide)).2.2.2⟩
